import Mathlib

/-!
Formal model of the local-knowledge-base core subsystems, translated from the
Python sources:

- `src/locallm/utils/cache.py` (`DocumentCache`): LRU document cache with
  mtime-based invalidation;
- `src/locallm/utils/file_lock.py` (`FileLock`, `KnowledgeMapLock`): the
  cross-process lock marker file;
- `src/locallm/utils/file_watcher.py` (`DocumentWatcher`): change detection;
- `src/locallm/agents/explorer.py` (`DocumentExplorer.ask` and helpers): the
  bounded tool-calling reasoning loop;
- `src/locallm/tools/map_generator.py` (`load_knowledge_map`,
  `generate_knowledge_map`): knowledge-map persistence.

Modelling conventions used throughout:
- Python strings are Lean `String`; the Python string builtins used by the
  sources (`in`, `split`, `strip`, `startswith`, `lower`, `int(...)`) are
  implemented below by structural recursion over the character list, with
  the semantics of the Python builtin (case folding is ASCII, which agrees
  with Python on every string appearing in the sources).
- File modification times (`st_mtime` floats) are modelled as `Int`; only
  their ordering and equality are ever consulted by the code.
- The filesystem is an explicit parameter `fs : String → Option Int`
  mapping a path to its current mtime (`none` = stat fails).
- `DocumentCache._get_cache_key` (MD5 of the resolved absolute path) is an
  injection from paths to keys; it is modelled as the identity on paths.
- Python dict/`OrderedDict` state is an association list whose order is the
  insertion order (front = oldest); key uniqueness corresponds to the fact
  that a Python dict cannot hold a key twice.
-/

/- ------------------------------------------------------------------ -/
/- Python string builtins                                              -/
/- ------------------------------------------------------------------ -/

/-- Whether `pre` is an initial segment of `l`. -/
def startsList : List Char → List Char → Bool
  | [], _ => true
  | _ :: _, [] => false
  | p :: ps, c :: cs => p == c && startsList ps cs

/-- Whether `sub` occurs contiguously in a character list. -/
def containsList (sub : List Char) : List Char → Bool
  | [] => startsList sub []
  | c :: rest => startsList sub (c :: rest) || containsList sub rest

/-- Worker for `pySplit`: scan left to right; at each occurrence of the
(nonempty) separator, emit the accumulated piece and skip the separator.
`fuel` only makes the recursion structural; each step consumes at least
one character, so `length + 1` fuel always suffices. -/
def splitGo (sep : List Char) : Nat → List Char → List Char → List (List Char)
  | _, [], acc => [acc.reverse]
  | 0, s, acc => [acc.reverse ++ s]
  | fuel + 1, c :: rest, acc =>
      if startsList sep (c :: rest) then
        acc.reverse :: splitGo sep fuel (List.drop (sep.length - 1) rest) []
      else
        splitGo sep fuel rest (c :: acc)

/-- Python `s.split(sep)` for a nonempty separator: the pieces between
consecutive non-overlapping occurrences of `sep`, scanned left to
right. -/
def pySplit (s sep : String) : List String :=
  (splitGo sep.data (s.data.length + 1) s.data []).map String.mk

/-- Python `sub in s` substring test. -/
def pyIn (sub s : String) : Bool :=
  containsList sub.data s.data

/-- Python `s.split(sep)[1]`: the text between the first and second
occurrence of `sep` (or after the first occurrence when it is the
last). -/
def pySplitGet1 (s sep : String) : String :=
  match pySplit s sep with
  | _ :: x :: _ => x
  | _ => ""

/-- The whitespace set of Python `str.strip()` (restricted to ASCII,
which covers every string appearing in the sources). -/
def isPySpace (c : Char) : Bool :=
  c == ' ' || c == '\t' || c == '\n' || c == '\r'
    || c == Char.ofNat 11 || c == Char.ofNat 12

/-- Python `s.strip()`: drop whitespace from both ends. -/
def pyStrip (s : String) : String :=
  String.mk (((s.data.dropWhile isPySpace).reverse.dropWhile isPySpace).reverse)

/-- Python `s.startswith(pre)`. -/
def pyStartsWith (s pre : String) : Bool :=
  startsList pre.data s.data

/-- ASCII lower-casing of one character (Python `str.lower` restricted
to ASCII; the non-ASCII characters in the sources are Chinese, which
both sides leave unchanged). -/
def pyLowerChar (c : Char) : Char :=
  if 65 ≤ c.toNat ∧ c.toNat ≤ 90 then Char.ofNat (c.toNat + 32) else c

/-- Python `s.lower()` (ASCII). -/
def pyLower (s : String) : String :=
  String.mk (s.data.map pyLowerChar)

/-- Value of a nonempty all-digit character list. -/
def digitsVal : List Char → Nat → Option Nat
  | [], acc => some acc
  | c :: rest, acc =>
      if 48 ≤ c.toNat ∧ c.toNat ≤ 57 then
        digitsVal rest (acc * 10 + (c.toNat - 48))
      else none

/-- Python `int(s)` on an already-stripped string: an optional sign
followed by at least one digit; anything else raises `ValueError`
(modelled as `none`). -/
def pyParseInt (s : String) : Option Int :=
  match s.data with
  | [] => none
  | '-' :: rest =>
      if rest = [] then none
      else (digitsVal rest 0).map (fun n => -(n : Int))
  | '+' :: rest =>
      if rest = [] then none
      else (digitsVal rest 0).map (fun n => (n : Int))
  | l => (digitsVal l 0).map (fun n => (n : Int))

/- ------------------------------------------------------------------ -/
/- Document cache: `src/locallm/utils/cache.py`                        -/
/- ------------------------------------------------------------------ -/

/-- One value of `DocumentCache.cache`: the dict built in
`DocumentCache.put` (content, size, mtime, cached_at, path). -/
structure CacheEntry where
  content : String
  size : Nat
  mtime : Int
  cachedAt : Int
  path : String
  deriving Repr, DecidableEq

/-- State of a `DocumentCache` instance.  `cache` is the `OrderedDict`,
front = least recently used (the `next(iter(...))` element). -/
structure DocumentCache where
  maxSizeBytes : Nat
  maxItems : Nat
  currentSize : Int
  cache : List (String × CacheEntry)
  hits : Nat
  misses : Nat
  deriving Repr, DecidableEq

/-- `DocumentCache._get_file_mtime`: `Path(p).stat().st_mtime`, with any
stat failure mapped to `0.0`. -/
def getFileMtime (fs : String → Option Int) (path : String) : Int :=
  (fs path).getD 0

/-- Lookup of a key in the ordered dict. -/
def findEntry (c : DocumentCache) (key : String) : Option (String × CacheEntry) :=
  c.cache.find? (fun kv => kv.1 == key)

/-- `DocumentCache._remove_entry`: pop the binding of `key` (a Python dict
holds a key at most once, so filtering all bindings of `key` is the same
operation) and subtract its recorded size. -/
def removeEntry (c : DocumentCache) (key : String) : DocumentCache :=
  match findEntry c key with
  | some kv =>
      { c with cache := c.cache.filter (fun x => x.1 != key),
               currentSize := c.currentSize - kv.2.size }
  | none => c

/-- `DocumentCache._evict_oldest`: remove the first (least recently used)
binding of the ordered dict, if any. -/
def evictOldest (c : DocumentCache) : DocumentCache :=
  match c.cache with
  | [] => c
  | kv :: _ => removeEntry c kv.1

/-- The eviction `while` loop of `DocumentCache.put`: evict least recently
used entries while the projected size or the item count is over bound and
the cache is nonempty.  `fuel` is an upper bound on the number of
iterations; `put` passes the cache length, which the loop can never
exceed because each eviction removes an entry. -/
def evictLoop (contentSize : Nat) : Nat → DocumentCache → DocumentCache
  | 0, c => c
  | fuel + 1, c =>
      if (c.currentSize + contentSize > (c.maxSizeBytes : Int)
            ∨ c.cache.length ≥ c.maxItems) ∧ c.cache ≠ [] then
        evictLoop contentSize fuel (evictOldest c)
      else c

/-- `DocumentCache.get`: returns the cached content (`none` = miss) and
the updated cache state.  A hit moves the entry to the most recently used
position; a stored mtime strictly smaller than the current one evicts the
entry and counts a miss. -/
def DocumentCache.get (c : DocumentCache) (fs : String → Option Int)
    (path : String) : Option String × DocumentCache :=
  let key := path
  match findEntry c key with
  | none => (none, { c with misses := c.misses + 1 })
  | some kv =>
      let current := getFileMtime fs path
      if current > kv.2.mtime then
        let c1 := removeEntry c key
        (none, { c1 with misses := c1.misses + 1 })
      else
        (some kv.2.content,
         { c with cache := c.cache.filter (fun x => x.1 != key) ++ [kv],
                  hits := c.hits + 1 })

/-- `DocumentCache.put`: remove any existing binding, run the eviction
loop, then append the new entry at the most recently used position.
`now` stands for `time.time()`. -/
def DocumentCache.put (c : DocumentCache) (fs : String → Option Int)
    (now : Int) (path content : String) : DocumentCache :=
  let key := path
  let contentSize := content.utf8ByteSize
  let c1 := if (findEntry c key).isSome then removeEntry c key else c
  let c2 := evictLoop contentSize c1.cache.length c1
  { c2 with
      cache := c2.cache ++
        [(key, ⟨content, contentSize, getFileMtime fs path, now, path⟩)],
      currentSize := c2.currentSize + contentSize }

/-- Accounting invariant of every reachable `DocumentCache` state: the
running byte counter equals the sum of the stored entry sizes, and keys
are unique (a Python dict cannot hold a key twice). -/
def CacheWF (c : DocumentCache) : Prop :=
  c.currentSize = (c.cache.map (fun kv => (kv.2.size : Int))).sum
    ∧ (c.cache.map Prod.fst).Nodup

/- ------------------------------------------------------------------ -/
/- Concurrency guard: `src/locallm/utils/file_lock.py`                 -/
/- ------------------------------------------------------------------ -/

/-- Observable state of the lock marker file and of the OS advisory lock
on it: whether the file exists, its current text body, and the pid (if
any) whose open handle holds the exclusive `flock`. -/
structure LockState where
  fileExists : Bool
  content : String
  holder : Option Int
  deriving Repr, DecidableEq

/-- One iteration of the retry loop in `FileLock.acquire` (a non-blocking
`acquire` performs exactly one such attempt; a blocking one repeats it
every 0.1 s until success or timeout).  The body first runs
`os.open(lock_file, O_RDWR | O_CREAT | O_TRUNC)`, which creates the file
if needed and truncates it to empty, then tries the exclusive
non-blocking `flock`; on success it writes the caller pid into the file,
on failure (lock held elsewhere) it closes the descriptor, leaving the
truncation behind. -/
def acquireAttempt (pid : Int) (st : LockState) : Bool × LockState :=
  let st1 : LockState := { st with fileExists := true, content := "" }
  match st1.holder with
  | none => (true, { st1 with holder := some pid, content := toString pid })
  | some _ => (false, st1)

/-- `KnowledgeMapLock.is_locked_by_another_process` (Unix branch): absent
file means not locked; otherwise read the body, parse the pid with
`int(f.read().strip())` and probe liveness (`os.kill(pid, 0)`, modelled
by `alive`); any failure to parse or read takes the bare `except` branch
and conservatively reports locked. -/
def isLockedByAnotherProcess (alive : Int → Bool) (st : LockState) : Bool :=
  if st.fileExists then
    match pyParseInt (pyStrip st.content) with
    | some pid => alive pid
    | none => true
  else
    false

/- ------------------------------------------------------------------ -/
/- Change watcher: `src/locallm/utils/file_watcher.py`                 -/
/- ------------------------------------------------------------------ -/

/-- Result of `DocumentWatcher._take_snapshot`: the supported files found
under the directory with their mtimes (one binding per path). -/
abbrev Snapshot : Type := List (String × Int)

/-- Paths of a snapshot. -/
def snapKeys (s : Snapshot) : List String :=
  (s : List (String × Int)).map Prod.fst

/-- Stored mtime of a path in a snapshot. -/
def snapLookup (s : Snapshot) (p : String) : Option Int :=
  ((s : List (String × Int)).find? (fun kv => kv.1 == p)).map Prod.snd

/-- The three delta sets returned by `DocumentWatcher.check_for_changes`,
represented as lists in scan order (Python uses `set`; every statement
proved below is about emptiness or membership, which does not depend on
the representation order). -/
structure Changes where
  added : List String
  modified : List String
  deleted : List String
  deriving Repr, DecidableEq

/-- `DocumentWatcher.check_for_changes`: diff the fresh scan `cur`
against the stored snapshot `last`, then replace the stored snapshot with
`cur` (returned as the new watcher state). -/
def checkForChanges (cur last : Snapshot) : Changes × Snapshot :=
  (⟨(snapKeys cur).filter (fun p => !((snapKeys last).contains p)),
    (snapKeys cur).filter
      (fun p => (snapKeys last).contains p
        && snapLookup cur p != snapLookup last p),
    (snapKeys last).filter (fun p => !((snapKeys cur).contains p))⟩,
   cur)

/-- `DocumentWatcher.has_changes`: run a full `check_for_changes`
(thereby replacing the stored snapshot) and report whether any of the
three sets is nonempty. -/
def hasChanges (cur last : Snapshot) : Bool × Snapshot :=
  let r := checkForChanges cur last
  (!r.1.added.isEmpty || !r.1.modified.isEmpty || !r.1.deleted.isEmpty, r.2)

/-- Python `Path(p).name`: the final path component. -/
def pathName (p : String) : String :=
  (pySplit p "/").getLastD p

/-- One block of `DocumentWatcher.get_change_summary`: header line with
the count, at most three named files, and an ellipsis line for the rest. -/
def summaryBlock (label mark : String) (paths : List String) : List String :=
  if paths.isEmpty then []
  else
    [label ++ ": " ++ toString paths.length ++ " file(s)"]
      ++ (paths.take 3).map (fun p => "  " ++ mark ++ " " ++ pathName p)
      ++ (if paths.length > 3 then
            ["  ... and " ++ toString (paths.length - 3) ++ " more"]
          else [])

/-- `DocumentWatcher.get_change_summary`: run a full `check_for_changes`
(replacing the stored snapshot) and format the result. -/
def getChangeSummary (cur last : Snapshot) : String × Snapshot :=
  let r := checkForChanges cur last
  let ch := r.1
  if ch.added.isEmpty && ch.modified.isEmpty && ch.deleted.isEmpty then
    ("No changes detected", r.2)
  else
    (String.intercalate "\n"
      (summaryBlock "Added" "+" ch.added
        ++ summaryBlock "Modified" "~" ch.modified
        ++ summaryBlock "Deleted" "-" ch.deleted),
     r.2)

/- ------------------------------------------------------------------ -/
/- Reasoning agent: `src/locallm/agents/explorer.py`                   -/
/- ------------------------------------------------------------------ -/

/-- One model generation, as consumed by `DocumentExplorer.ask`: the
sequence of streamed fragment contents, and (optionally) an exception
raised by the stream after those fragments were delivered.  An inference
call failing before producing anything is `frags = []` with an error
(the underlying client issues the request lazily, on the first pull of
the stream). -/
structure TurnGen where
  frags : List String
  err : Option String
  deriving Repr, DecidableEq

/-- The streaming `for chunk in stream` loop of `DocumentExplorer.ask`:
each chunk first bumps the chunk counter, which is checked against
`max_chunks = 2000`; then the accumulated length is checked against
`max_length = 16000`; either breach appends an inline truncation marker
and breaks.  Returns the accumulated text and whether the loop broke
early (in which case the rest of the stream is never pulled). -/
def consumeStream : List String → Nat → String → String × Bool
  | [], _, acc => (acc, false)
  | content :: rest, count, acc =>
      if count + 1 > 2000 then
        (acc ++ "\n\n[Response truncated: exceeded maximum chunks]", true)
      else if acc.length > 16000 then
        (acc ++ "\n\n[Response truncated: exceeded maximum length]", true)
      else
        consumeStream rest (count + 1) (acc ++ content)

/-- One generation call guarded by the inner `try`/`except` of
`DocumentExplorer.ask`: consume the stream; if the stream raised after
the consumed fragments (and the loop had not already broken out), keep
the partial text when there is any, otherwise synthesize an error
message. -/
def streamTurn (t : TurnGen) : String :=
  let r := consumeStream t.frags 0 ""
  match t.err with
  | none => r.1
  | some e =>
      if r.2 then r.1
      else if r.1 = "" then "Error during response generation: " ++ e
      else r.1

/-- The line scan of `DocumentExplorer.ask` over an utterance that
contains both markers: for each line, a stripped line starting with
`Action:` sets the action to the text after the first marker occurrence
(stripped), else a stripped line starting with `Action Input:` sets the
input likewise; later lines overwrite earlier ones; a field never set is
`none`. -/
def parseDirective (msg : String) : Option String × Option String :=
  (pySplit msg "\n").foldl
    (fun acc line =>
      if pyStartsWith (pyStrip line) "Action:" then
        (some (pyStrip (pySplitGet1 line "Action:")), acc.2)
      else if pyStartsWith (pyStrip line) "Action Input:" then
        (acc.1, some (pyStrip (pySplitGet1 line "Action Input:")))
      else acc)
    (none, none)

/-- Python truthiness of the parsed fields: `None` and the empty string
are falsy. -/
def truthy : Option String → Bool
  | some s => s != ""
  | none => false

/-- The guard of the tool-dispatch branch: both marker substrings occur
in the utterance, and the line scan produced truthy action and input
fields. -/
def dispatchCond (msg : String) : Bool :=
  pyIn "Action:" msg && pyIn "Action Input:" msg
    && truthy (parseDirective msg).1 && truthy (parseDirective msg).2

/-- One recorded tool-call step of `DocumentExplorer.ask`. -/
structure Step where
  action : String
  input : String
  observation : String
  deriving Repr, DecidableEq

/-- The dictionary returned by `DocumentExplorer.ask`. -/
structure AskResult where
  answer : String
  steps : List Step
  deriving Repr, DecidableEq

/-- The list of `incomplete_indicators` of
`DocumentExplorer._is_incomplete_answer`. -/
def incompleteIndicators : List String :=
  ["I cannot",
   "I don" ++ String.singleton (Char.ofNat 39) ++ "t have",
   "no information",
   "not found",
   "unable to",
   "無法",
   "找不到",
   "沒有資訊"]

/-- `DocumentExplorer._is_incomplete_answer`: case-insensitive substring
match of the fixed phrase list against the answer. -/
def isIncompleteAnswer (answer : String) : Bool :=
  incompleteIndicators.any (fun ind => pyIn (pyLower ind) (pyLower answer))

/-- The iteration body of `DocumentExplorer.ask`.  `gen i` is the model
utterance stream of the generation call made on loop iteration `i`;
`tool` is the observation returned by `_call_tool` for an action and
input; `fb` is the result `_fallback_keyword_search` returns for the
question (the question reaches the loop only through it).  `fuel` is the
number of loop iterations still available: `fuel = 0` is the fall-off-
the-end return after the `for` loop, and `fuel = 1` means the current
iteration is the last one (`iteration == max_iterations - 1`).
Dispatching a tool executes `continue`, so it skips the final-answer,
direct-answer and last-iteration handling even when `fuel = 1`. -/
def askAux (gen : Nat → TurnGen) (tool : String → String → String)
    (fb : String) : Nat → Nat → List Step → AskResult
  | 0, _, steps => ⟨"Maximum iterations reached without final answer.", steps⟩
  | fuel + 1, i, steps =>
      let msg := streamTurn (gen i)
      if dispatchCond msg then
        let a := ((parseDirective msg).1).getD ""
        let inp := ((parseDirective msg).2).getD ""
        askAux gen tool fb fuel (i + 1) (steps ++ [⟨a, inp, tool a inp⟩])
      else if pyIn "Final Answer:" msg then
        ⟨pyStrip (pySplitGet1 msg "Final Answer:"), steps⟩
      else if !(pyIn "Action:" msg) then
        ⟨msg, steps⟩
      else if fuel = 0 then
        if isIncompleteAnswer msg then
          ⟨msg ++ "\n\n" ++ fb, steps⟩
        else
          ⟨msg, steps⟩
      else
        askAux gen tool fb fuel (i + 1) steps

/-- `DocumentExplorer.ask` with iteration cap `maxIter`
(`max_iterations`, default 10). -/
def ask (gen : Nat → TurnGen) (tool : String → String → String)
    (fb : String) (maxIter : Nat) : AskResult :=
  askAux gen tool fb maxIter 0 []

/- ------------------------------------------------------------------ -/
/- Knowledge-map persistence: `src/locallm/tools/map_generator.py`     -/
/- ------------------------------------------------------------------ -/

/-- A parsed YAML document as `yaml.safe_load` returns it (restricted to
the shapes relevant here): the null document, a scalar, a sequence or a
mapping. -/
inductive Yaml where
  | null
  | scalar (s : String)
  | seq (items : List Yaml)
  | map (fields : List (String × Yaml))

/-- The on-disk state of `knowledge_map.yaml` as seen by
`load_knowledge_map`: absent, parsing to a YAML document, or failing to
parse (in which case `yaml.safe_load` raises `yaml.YAMLError`). -/
inductive MapFile where
  | absent
  | parsed (v : Yaml)
  | malformed

/-- `load_knowledge_map`: `None` when the file does not exist, otherwise
the bare result of `yaml.safe_load` (the call sits in no `try` block, so
a parse failure propagates as an exception, modelled by `Except.error`);
a file whose document is null loads as Python `None`. -/
def loadKnowledgeMap : MapFile → Except String (Option Yaml)
  | MapFile.absent => Except.ok none
  | MapFile.parsed Yaml.null => Except.ok none
  | MapFile.parsed v => Except.ok (some v)
  | MapFile.malformed => Except.error "yaml.YAMLError"

/-- `DocumentExplorer._load_or_create_knowledge_map`: load; when the
result is `None`, run `generate_knowledge_map` (`afterBuild` is the file
it leaves behind) and load again.  The method contains no exception
handling, so a loader exception propagates to the constructor caller.
Returns the loaded map and whether a build was triggered. -/
def loadOrCreateKnowledgeMap (file afterBuild : MapFile) :
    Except String (Option Yaml × Bool) := do
  let m ← loadKnowledgeMap file
  match m with
  | some v => Except.ok (some v, false)
  | none => do
      let m2 ← loadKnowledgeMap afterBuild
      Except.ok (m2, true)

/-- File contents a concurrent reader of `knowledge_map.yaml` can
observe while `generate_knowledge_map` persists a rebuilt index over a
previous one with body `old`: the write is
`with open(output_path, "w", ...) as f: yaml.dump(knowledge_map, f, ...)`,
so opening with mode `"w"` first truncates the file in place to empty,
and the serialized text `new` reaches the file only afterwards. -/
def saveObservableStates (old new : String) : List String :=
  [old, "", new]

/- ------------------------------------------------------------------ -/
/- Helper lemmas                                                       -/
/- ------------------------------------------------------------------ -/

/-- Filtering a list of strings by non-membership in itself leaves
nothing. -/
lemma filter_not_contains_self (l l2 : List String) (h : ∀ p ∈ l, p ∈ l2) :
    l.filter (fun p => !(l2.contains p)) = [] := by
  apply List.filter_eq_nil_iff.mpr
  intro a ha
  simp [List.elem_iff, h a ha]

/-- Diffing a snapshot against itself reports no changes and keeps the
snapshot. -/
lemma checkForChanges_self (s : Snapshot) :
    checkForChanges s s = (⟨[], [], []⟩, s) := by
  unfold checkForChanges
  refine Prod.ext ?_ rfl
  have hadded : (snapKeys s).filter (fun p => !((snapKeys s).contains p)) = [] :=
    filter_not_contains_self _ _ (fun p hp => hp)
  have hmod : (snapKeys s).filter
      (fun p => (snapKeys s).contains p
        && snapLookup s p != snapLookup s p) = [] := by
    apply List.filter_eq_nil_iff.mpr
    intro a _
    simp
  simp [hadded, hmod]

/- ------------------------------------------------------------------ -/
/- Claim theorems                                                      -/
/- ------------------------------------------------------------------ -/

/-- C8: `check_for_changes` diffs the fresh scan against the previously
stored snapshot and then replaces it: after a file `F` (not previously
present) appears, one call reports `F` in `added` exactly once, and an
immediately following call with no further filesystem changes reports
all three sets empty. -/
theorem watcher_added_once_then_empty (s : Snapshot) (F : String) (m : Int)
    (hF : (snapKeys s).contains F = false) :
    (checkForChanges (s ++ [(F, m)]) s).1.added = [F]
      ∧ checkForChanges (s ++ [(F, m)]) (checkForChanges (s ++ [(F, m)]) s).2
          = (⟨[], [], []⟩, s ++ [(F, m)]) := by
  constructor
  · show ((snapKeys (s ++ [(F, m)])).filter
      (fun p => !((snapKeys s).contains p))) = [F]
    have hkeys : snapKeys (s ++ [(F, m)]) = snapKeys s ++ [F] := by
      simp [snapKeys]
    rw [hkeys, List.filter_append,
        filter_not_contains_self _ _ (fun p hp => hp)]
    have hFmem : F ∉ snapKeys s := by simpa using hF
    simp [hF, hFmem]
  · have hst : (checkForChanges (s ++ [(F, m)]) s).2 = s ++ [(F, m)] := rfl
    rw [hst, checkForChanges_self]

/-- C8 witness: a concrete run of the two calls. -/
theorem watcher_added_once_then_empty_witness :
    (snapKeys [("a.txt", (1 : Int))]).contains "b.md" = false
      ∧ ((checkForChanges [("a.txt", 1), ("b.md", 7)] [("a.txt", 1)]).1.added
          = ["b.md"]
        ∧ checkForChanges [("a.txt", 1), ("b.md", 7)]
            (checkForChanges [("a.txt", 1), ("b.md", 7)] [("a.txt", 1)]).2
          = (⟨[], [], []⟩, [("a.txt", 1), ("b.md", 7)])) :=
  ⟨by decide, watcher_added_once_then_empty [("a.txt", 1)] "b.md" 7 (by decide)⟩

/-- C10: `has_changes` runs a full `check_for_changes` and replaces the
stored snapshot, so after it returns true, an immediately following
`check_for_changes` (or `get_change_summary`) with an unchanged
filesystem reports all three sets empty: the pending delta is consumed
by the boolean convenience check. -/
theorem has_changes_consumes_delta (cur last : Snapshot)
    (_h : (hasChanges cur last).1 = true) :
    (checkForChanges cur (hasChanges cur last).2).1 = ⟨[], [], []⟩
      ∧ (getChangeSummary cur (hasChanges cur last).2).1
          = "No changes detected" := by
  have hst : (hasChanges cur last).2 = cur := rfl
  rw [hst]
  constructor
  · rw [checkForChanges_self]
  · unfold getChangeSummary
    rw [checkForChanges_self]
    rfl

/-- C10 witness: a concrete run in which `has_changes` reports true. -/
theorem has_changes_consumes_delta_witness :
    (hasChanges [("a.txt", (1 : Int))] []).1 = true
      ∧ ((checkForChanges [("a.txt", (1 : Int))]
            (hasChanges [("a.txt", (1 : Int))] []).2).1 = ⟨[], [], []⟩
        ∧ (getChangeSummary [("a.txt", (1 : Int))]
            (hasChanges [("a.txt", (1 : Int))] []).2).1
            = "No changes detected") :=
  ⟨by decide, has_changes_consumes_delta [("a.txt", 1)] [] (by decide)⟩

/-- C2 counterexample: process 100 acquires the lock (marker body is
then "100"), after which process 200 makes one failed acquisition
attempt; the attempt truncates the marker file to empty before its
`flock` fails, so during the window in which 100 still holds the lock
the marker body is no longer the pid of 100 — refuting the claim that
the body stays the pid of the holder while another process attempts and
fails to acquire. -/
theorem lock_pid_truncated_cex :
    ((acquireAttempt 100 ⟨false, "", none⟩).2).content = "100"
      ∧ (acquireAttempt 200 (acquireAttempt 100 ⟨false, "", none⟩).2).1 = false
      ∧ ((acquireAttempt 200 (acquireAttempt 100 ⟨false, "", none⟩).2).2).holder
          = some 100
      ∧ ((acquireAttempt 200 (acquireAttempt 100 ⟨false, "", none⟩).2).2).content
          = ""
      ∧ ((acquireAttempt 200 (acquireAttempt 100 ⟨false, "", none⟩).2).2).content
          ≠ "100" := by
  refine ⟨rfl, rfl, rfl, rfl, ?_⟩
  decide

/-- C2 amended: a successful acquisition writes the caller pid into the
marker file and that body persists as long as no other process calls
acquire; but a concurrent failed acquisition attempt truncates the
marker to empty before failing (mutual exclusion itself is preserved),
after which a liveness probe cannot read the holder pid and the bare
`except` branch conservatively reports the lock as held. -/
theorem lock_pid_invariant_amended (p q : Int) (st : LockState)
    (hfree : st.holder = none) (_hpq : p ≠ q) :
    ((acquireAttempt p st).1 = true
      ∧ ((acquireAttempt p st).2).content = toString p
      ∧ ((acquireAttempt p st).2).holder = some p)
    ∧ ((acquireAttempt q (acquireAttempt p st).2).1 = false
      ∧ ((acquireAttempt q (acquireAttempt p st).2).2).holder = some p
      ∧ ((acquireAttempt q (acquireAttempt p st).2).2).content = ""
      ∧ ∀ alive : Int → Bool,
          isLockedByAnotherProcess alive
            ((acquireAttempt q (acquireAttempt p st).2).2) = true) := by
  simp [acquireAttempt, hfree, isLockedByAnotherProcess]
  intro alive
  rfl

/-- C2 amended witness: pids 100 and 200 on an initially free, absent
marker file. -/
theorem lock_pid_invariant_amended_witness :
    ((100 : Int) ≠ 200 ∧ (⟨false, "", none⟩ : LockState).holder = none)
      ∧ (((acquireAttempt 100 ⟨false, "", none⟩).1 = true
          ∧ ((acquireAttempt 100 ⟨false, "", none⟩).2).content = toString (100 : Int)
          ∧ ((acquireAttempt 100 ⟨false, "", none⟩).2).holder = some 100)
        ∧ ((acquireAttempt 200 (acquireAttempt 100 ⟨false, "", none⟩).2).1 = false
          ∧ ((acquireAttempt 200 (acquireAttempt 100 ⟨false, "", none⟩).2).2).holder
              = some 100
          ∧ ((acquireAttempt 200 (acquireAttempt 100 ⟨false, "", none⟩).2).2).content
              = ""
          ∧ ∀ alive : Int → Bool,
              isLockedByAnotherProcess alive
                ((acquireAttempt 200 (acquireAttempt 100 ⟨false, "", none⟩).2).2)
                = true)) :=
  ⟨⟨by decide, rfl⟩,
   lock_pid_invariant_amended 100 200 ⟨false, "", none⟩ rfl (by decide)⟩

/-- C7 (code bug): loading an existing but unparsable `knowledge_map.yaml`
propagates the `yaml.safe_load` exception out of
`DocumentExplorer._load_or_create_knowledge_map` instead of treating the
file as "no index" and triggering a build; an absent file, by contrast,
is handled as the claim describes (build triggered, new map loaded). -/
theorem malformed_map_propagates_error :
    loadOrCreateKnowledgeMap MapFile.malformed MapFile.absent
        = Except.error "yaml.YAMLError"
      ∧ loadOrCreateKnowledgeMap MapFile.absent (MapFile.parsed (Yaml.map []))
        = Except.ok (some (Yaml.map []), true) :=
  ⟨rfl, rfl⟩

/-- C9 (code bug): while `generate_knowledge_map` overwrites the index
file in place, a concurrent reader can observe the empty file left by
the truncating `open(..., "w")` — a state that is neither the complete
previous index nor the complete new one, refuting atomicity from the
reader's perspective. -/
theorem index_write_not_atomic :
    "" ∈ saveObservableStates "version: 1.0\ntotal_documents: 2"
          "version: 1.0\ntotal_documents: 3"
      ∧ "" ≠ "version: 1.0\ntotal_documents: 2"
      ∧ "" ≠ "version: 1.0\ntotal_documents: 3" := by
  refine ⟨?_, by decide, by decide⟩
  simp [saveObservableStates]

/-- Removing an entry keeps a sublist of the cache. -/
lemma removeEntry_sublist (c : DocumentCache) (k : String) :
    (removeEntry c k).cache.Sublist c.cache := by
  unfold removeEntry
  cases findEntry c k with
  | none => exact List.Sublist.refl _
  | some kv => exact List.filter_sublist _

/-- Unfolding equation for `evictOldest`. -/
lemma evictOldest_eq (c : DocumentCache) :
    evictOldest c = match c.cache with
      | [] => c
      | kv :: _ => removeEntry c kv.1 := rfl

/-- Evicting the oldest entry keeps a sublist of the cache. -/
lemma evictOldest_sublist (c : DocumentCache) :
    (evictOldest c).cache.Sublist c.cache := by
  cases hc : c.cache with
  | nil =>
    have h : evictOldest c = c := by rw [evictOldest_eq, hc]
    rw [h, hc]
  | cons kv t =>
    have h : evictOldest c = removeEntry c kv.1 := by rw [evictOldest_eq, hc]
    rw [h, ← hc]
    exact removeEntry_sublist _ _

/-- The eviction loop keeps a sublist of the cache. -/
lemma evictLoop_sublist (cs : Nat) (fuel : Nat) :
    ∀ c : DocumentCache, (evictLoop cs fuel c).cache.Sublist c.cache := by
  induction fuel with
  | zero => intro c; exact List.Sublist.refl _
  | succ n ih =>
    intro c
    unfold evictLoop
    split
    · exact (ih (evictOldest c)).trans (evictOldest_sublist c)
    · exact List.Sublist.refl _

/-- Looking up a key not bound in the prefix finds the appended
binding. -/
lemma find_append_key (l : List (String × CacheEntry)) (p : String)
    (e : CacheEntry) (h : ∀ kv ∈ l, kv.1 ≠ p) :
    (l ++ [(p, e)]).find? (fun kv => kv.1 == p) = some (p, e) := by
  induction l with
  | nil => simp
  | cons kv t ih =>
    have h1 : (kv.1 == p) = false := by
      simp [h kv (by simp)]
    simp only [List.cons_append, List.find?, h1]
    exact ih (fun x hx => h x (by simp [hx]))

/-- After the pre-removal step of `put`, no binding of the inserted key
remains. -/
lemma c1_no_key (c : DocumentCache) (p : String) :
    ∀ kv ∈ ((if (findEntry c p).isSome then removeEntry c p else c)).cache,
      kv.1 ≠ p := by
  cases h : findEntry c p with
  | none =>
    simp only [h, Option.isSome_none, Bool.false_eq_true, if_false]
    intro kv hkv
    have := List.find?_eq_none.mp h kv hkv
    simpa using this
  | some kv0 =>
    simp only [h, Option.isSome_some, if_true]
    intro kv hkv
    unfold removeEntry at hkv
    rw [h] at hkv
    simp only at hkv
    have := List.mem_filter.mp hkv
    simpa using this.2

/-- Looking up the inserted path right after `put` finds exactly the new
entry (with the mtime recorded at insertion time). -/
lemma findEntry_put (c : DocumentCache) (fs : String → Option Int)
    (now : Int) (p content : String) :
    findEntry (DocumentCache.put c fs now p content) p
      = some (p, ⟨content, content.utf8ByteSize, getFileMtime fs p, now, p⟩) := by
  unfold DocumentCache.put findEntry
  apply find_append_key
  intro kv hkv
  have hsub := evictLoop_sublist content.utf8ByteSize
    ((if (findEntry c p).isSome then removeEntry c p else c)).cache.length
    ((if (findEntry c p).isSome then removeEntry c p else c))
  exact c1_no_key c p kv (hsub.subset hkv)

/-- Filtering by a key absent from the association list changes
nothing. -/
lemma filter_ne_of_not_mem_keys (k : String) (t : List (String × CacheEntry))
    (hk : k ∉ t.map Prod.fst) : t.filter (fun x => x.1 != k) = t := by
  apply List.filter_eq_self.mpr
  intro x hx
  simp only [bne_iff_ne, ne_eq]
  intro heq
  exact hk (heq ▸ List.mem_map_of_mem Prod.fst hx)

/-- With unique keys, filtering out the found binding subtracts exactly
its size from the size sum. -/
lemma filter_key_sum (k : String) (kv : String × CacheEntry) :
    ∀ l : List (String × CacheEntry), (l.map Prod.fst).Nodup →
      l.find? (fun x => x.1 == k) = some kv →
      ((l.filter (fun x => x.1 != k)).map (fun x => (x.2.size : Int))).sum
        = (l.map (fun x => (x.2.size : Int))).sum - kv.2.size := by
  intro l
  induction l with
  | nil => intro _ hfind; simp at hfind
  | cons y t ih =>
    intro hnd hfind
    have hnd2 : (t.map Prod.fst).Nodup := by
      simp only [List.map_cons, List.nodup_cons] at hnd
      exact hnd.2
    have hymem : y.1 ∉ t.map Prod.fst := by
      simp only [List.map_cons, List.nodup_cons] at hnd
      exact hnd.1
    by_cases hy : (y.1 == k) = true
    · rw [@List.find?_cons_of_pos _ (fun x => x.1 == k) y t hy] at hfind
      have hkv : y = kv := by injection hfind
      have hk : y.1 = k := by simpa using hy
      have hfy : ¬((y.1 != k) = true) := by simp [hk]
      rw [@List.filter_cons_of_neg _ (fun x => x.1 != k) y t hfy]
      rw [filter_ne_of_not_mem_keys k t (hk ▸ hymem)]
      simp [hkv]
    · rw [@List.find?_cons_of_neg _ (fun x => x.1 == k) y t hy] at hfind
      have hfy : (y.1 != k) = true := by simpa [bne] using hy
      rw [@List.filter_cons_of_pos _ (fun x => x.1 != k) y t hfy]
      simp only [List.map_cons, List.sum_cons]
      rw [ih hnd2 hfind]
      omega

/-- `_remove_entry` preserves the accounting invariant and the
configuration bounds. -/
lemma removeEntry_wf (c : DocumentCache) (k : String) (h : CacheWF c) :
    CacheWF (removeEntry c k)
      ∧ (removeEntry c k).maxSizeBytes = c.maxSizeBytes
      ∧ (removeEntry c k).maxItems = c.maxItems := by
  unfold removeEntry
  cases hfind : findEntry c k with
  | none => exact ⟨h, rfl, rfl⟩
  | some kv =>
    refine ⟨⟨?_, ?_⟩, rfl, rfl⟩
    · show c.currentSize - kv.2.size
        = ((c.cache.filter (fun x => x.1 != k)).map
            (fun x => (x.2.size : Int))).sum
      rw [filter_key_sum k kv c.cache h.2 hfind, ← h.1]
    · show ((c.cache.filter (fun x => x.1 != k)).map Prod.fst).Nodup
      exact h.2.sublist ((List.filter_sublist _).map Prod.fst)

/-- Explicit form of `_evict_oldest` on a nonempty cache with unique
keys: drop the front entry and its size. -/
lemma evictOldest_cons (c : DocumentCache) (kv : String × CacheEntry)
    (t : List (String × CacheEntry)) (hc : c.cache = kv :: t)
    (hnd : (c.cache.map Prod.fst).Nodup) :
    evictOldest c
      = { c with cache := t, currentSize := c.currentSize - kv.2.size } := by
  have h1 : evictOldest c = removeEntry c kv.1 := by rw [evictOldest_eq, hc]
  rw [h1]
  unfold removeEntry
  have h2 : findEntry c kv.1 = some kv := by
    unfold findEntry
    rw [hc]
    exact @List.find?_cons_of_pos _ (fun x => x.1 == kv.1) kv t (by simp)
  rw [h2]
  have hymem : kv.1 ∉ t.map Prod.fst := by
    rw [hc] at hnd
    simp only [List.map_cons, List.nodup_cons] at hnd
    exact hnd.1
  have h3 : c.cache.filter (fun x => x.1 != kv.1) = t := by
    rw [hc, @List.filter_cons_of_neg _ (fun x => x.1 != kv.1) kv t (by simp),
        filter_ne_of_not_mem_keys kv.1 t hymem]
  rw [h3]

/-- Unfolding equation for one iteration of the eviction loop. -/
lemma evictLoop_succ (cs n : Nat) (c : DocumentCache) :
    evictLoop cs (n + 1) c
      = if (c.currentSize + cs > (c.maxSizeBytes : Int)
            ∨ c.cache.length ≥ c.maxItems) ∧ c.cache ≠ [] then
          evictLoop cs n (evictOldest c)
        else c := rfl

/-- Invariant of the eviction loop: the accounting invariant and the
configuration bounds are preserved, and on exit either both capacity
conditions hold for the incoming entry or the cache has been fully
emptied. -/
lemma evictLoop_spec (cs : Nat) :
    ∀ (fuel : Nat) (c : DocumentCache), CacheWF c → c.cache.length ≤ fuel →
      CacheWF (evictLoop cs fuel c)
      ∧ (evictLoop cs fuel c).maxSizeBytes = c.maxSizeBytes
      ∧ (evictLoop cs fuel c).maxItems = c.maxItems
      ∧ (¬((evictLoop cs fuel c).currentSize + cs > (c.maxSizeBytes : Int)
            ∨ (evictLoop cs fuel c).cache.length ≥ c.maxItems)
         ∨ (evictLoop cs fuel c).cache = []) := by
  intro fuel
  induction fuel with
  | zero =>
    intro c hwf hlen
    have hnil : c.cache = [] := List.length_eq_zero.mp (Nat.le_zero.mp hlen)
    exact ⟨hwf, rfl, rfl, Or.inr hnil⟩
  | succ n ih =>
    intro c hwf hlen
    by_cases hcond : ((c.currentSize + cs > (c.maxSizeBytes : Int)
        ∨ c.cache.length ≥ c.maxItems) ∧ c.cache ≠ [])
    · have hstep : evictLoop cs (n + 1) c = evictLoop cs n (evictOldest c) := by
        rw [evictLoop_succ cs n c, if_pos hcond]
      rw [hstep]
      obtain ⟨kv, t, hc⟩ : ∃ kv t, c.cache = kv :: t := by
        cases hcc : c.cache with
        | nil => exact absurd hcc hcond.2
        | cons kv t => exact ⟨kv, t, rfl⟩
      have heo := evictOldest_cons c kv t hc hwf.2
      have hwf2 : CacheWF (evictOldest c) := by
        rw [heo]
        constructor
        · show c.currentSize - kv.2.size
            = (t.map (fun x => (x.2.size : Int))).sum
          have h1 := hwf.1
          rw [hc] at h1
          simp only [List.map_cons, List.sum_cons] at h1
          omega
        · show (t.map Prod.fst).Nodup
          have h2 := hwf.2
          rw [hc] at h2
          simp only [List.map_cons, List.nodup_cons] at h2
          exact h2.2
      have hlen2 : (evictOldest c).cache.length ≤ n := by
        rw [heo]
        show t.length ≤ n
        rw [hc] at hlen
        simpa using hlen
      have hres := ih (evictOldest c) hwf2 hlen2
      have hms : (evictOldest c).maxSizeBytes = c.maxSizeBytes := by rw [heo]
      have hmi : (evictOldest c).maxItems = c.maxItems := by rw [heo]
      refine ⟨hres.1, hres.2.1.trans hms, hres.2.2.1.trans hmi, ?_⟩
      rcases hres.2.2.2 with hok | hempty
      · left
        rw [hms, hmi] at hok
        exact hok
      · exact Or.inr hempty
    · have hstep : evictLoop cs (n + 1) c = c := by
        rw [evictLoop_succ cs n c, if_neg hcond]
      rw [hstep]
      refine ⟨hwf, rfl, rfl, ?_⟩
      rcases Classical.em (c.cache = []) with h | h
      · exact Or.inr h
      · left
        intro hA
        exact hcond ⟨hA, h⟩

/-- The pre-removal step of `put` preserves the accounting invariant and
the configuration bounds. -/
lemma c1_wf (c : DocumentCache) (p : String) (h : CacheWF c) :
    CacheWF ((if (findEntry c p).isSome then removeEntry c p else c))
      ∧ ((if (findEntry c p).isSome then removeEntry c p else c)).maxSizeBytes
          = c.maxSizeBytes
      ∧ ((if (findEntry c p).isSome then removeEntry c p else c)).maxItems
          = c.maxItems := by
  by_cases hs : (findEntry c p).isSome
  · rw [if_pos hs]
    exact removeEntry_wf c p h
  · rw [if_neg hs]
    exact ⟨h, rfl, rfl⟩

/-- The final insertion step of `put`: starting from a state in which
the eviction loop has exited, appending the new entry keeps the
accounting invariant, respects the item bound, and respects the byte
bound except when the single new entry alone exceeds it, in which case
the cache holds exactly that entry. -/
lemma append_step (c2 : DocumentCache) (p : String) (e : CacheEntry)
    (hwf2 : CacheWF c2) (hno : ∀ kv ∈ c2.cache, kv.1 ≠ p)
    (hpost : ¬(c2.currentSize + e.size > (c2.maxSizeBytes : Int)
        ∨ c2.cache.length ≥ c2.maxItems) ∨ c2.cache = [])
    (hmax : 1 ≤ c2.maxItems) :
    CacheWF { c2 with cache := c2.cache ++ [(p, e)],
                      currentSize := c2.currentSize + e.size }
    ∧ (c2.cache ++ [(p, e)]).length ≤ c2.maxItems
    ∧ (c2.currentSize + e.size ≤ (c2.maxSizeBytes : Int)
       ∨ ((c2.maxSizeBytes : Int) < (e.size : Int)
          ∧ c2.cache ++ [(p, e)] = [(p, e)])) := by
  refine ⟨⟨?_, ?_⟩, ?_, ?_⟩
  · show c2.currentSize + e.size
      = ((c2.cache ++ [(p, e)]).map (fun x => (x.2.size : Int))).sum
    rw [List.map_append, List.sum_append, ← hwf2.1]
    simp
  · show ((c2.cache ++ [(p, e)]).map Prod.fst).Nodup
    rw [List.map_append]
    apply List.Nodup.append hwf2.2 (by simp)
    intro a ha hb
    simp only [List.map_cons, List.map_nil, List.mem_singleton] at hb
    obtain ⟨kv, hkv, hkva⟩ := List.mem_map.mp ha
    exact hno kv hkv (hkva.trans hb)
  · rcases hpost with hok | hempty
    · push_neg at hok
      have := hok.2
      simp only [List.length_append, List.length_singleton]
      omega
    · simp [hempty, hmax]
  · rcases hpost with hok | hempty
    · push_neg at hok
      exact Or.inl hok.1
    · have hzero : c2.currentSize = 0 := by
        have := hwf2.1
        rw [hempty] at this
        simpa using this
      by_cases hbig : (e.size : Int) ≤ (c2.maxSizeBytes : Int)
      · exact Or.inl (by omega)
      · right
        refine ⟨by omega, ?_⟩
        rw [hempty]
        simp

/-- C1 counterexample: a file cached at mtime 5 whose mtime then moves
backwards to 3 (or whose stat starts failing, mapped to 0.0) is still
served from the cache: `get` invalidates only when the current mtime is
strictly greater than the stored one, so the claimed miss-on-any-change
(and on unstattable files) does not hold. -/
theorem cache_stale_served_cex :
    ((fun p => if p = "doc.txt" then some (5 : Int) else none) "doc.txt"
        = some 5)
      ∧ ((fun p => if p = "doc.txt" then some (3 : Int) else none) "doc.txt"
        = some 3)
      ∧ ((DocumentCache.put ⟨104857600, 50, 0, [], 0, 0⟩
            (fun p => if p = "doc.txt" then some (5 : Int) else none)
            0 "doc.txt" "hello").get
          (fun p => if p = "doc.txt" then some (3 : Int) else none)
          "doc.txt").1 = some "hello"
      ∧ ((DocumentCache.put ⟨104857600, 50, 0, [], 0, 0⟩
            (fun p => if p = "doc.txt" then some (5 : Int) else none)
            0 "doc.txt" "hello").get (fun _ => none) "doc.txt").1
          = some "hello" := by
  refine ⟨by decide, by decide, by decide, by decide⟩

/-- C1 amended: a `get` immediately after a `put` for an unmodified file
returns exactly the stored content; a later `get` evicts the entry and
misses iff the current mtime is strictly greater than the stored one;
when the current mtime is smaller or equal (including an unstattable
file, whose mtime reads as 0.0) the stored content is still served. -/
theorem cache_mtime_validity_amended (c : DocumentCache)
    (fs fs2 : String → Option Int) (now : Int) (p content : String) :
    (((DocumentCache.put c fs now p content).get fs p).1 = some content)
    ∧ (getFileMtime fs p < getFileMtime fs2 p →
        ((DocumentCache.put c fs now p content).get fs2 p).1 = none
        ∧ findEntry (((DocumentCache.put c fs now p content).get fs2 p).2) p
            = none)
    ∧ (getFileMtime fs2 p ≤ getFileMtime fs p →
        ((DocumentCache.put c fs now p content).get fs2 p).1 = some content) := by
  have hfind := findEntry_put c fs now p content
  refine ⟨?_, ?_, ?_⟩
  · simp [DocumentCache.get, hfind]
  · intro hlt
    unfold DocumentCache.get
    dsimp only
    rw [hfind]
    dsimp only
    rw [if_pos hlt]
    constructor
    · rfl
    · unfold findEntry removeEntry
      rw [hfind]
      dsimp only
      exact List.find?_eq_none.mpr (fun x hx => by
        have := List.mem_filter.mp hx
        simpa using this.2)
  · intro hle
    unfold DocumentCache.get
    dsimp only
    rw [hfind]
    dsimp only
    rw [if_neg (not_lt.mpr hle)]

/-- C1 amended witness: mtime moves from 5 to 9, and the next get
misses. -/
theorem cache_mtime_validity_amended_witness :
    (getFileMtime (fun p => if p = "doc.txt" then some (5 : Int) else none)
        "doc.txt"
      < getFileMtime (fun p => if p = "doc.txt" then some (9 : Int) else none)
        "doc.txt")
      ∧ ((DocumentCache.put ⟨104857600, 50, 0, [], 0, 0⟩
            (fun p => if p = "doc.txt" then some (5 : Int) else none)
            0 "doc.txt" "hello").get
          (fun p => if p = "doc.txt" then some (9 : Int) else none)
          "doc.txt").1 = none :=
  ⟨by decide,
   ((cache_mtime_validity_amended ⟨104857600, 50, 0, [], 0, 0⟩
      (fun p => if p = "doc.txt" then some (5 : Int) else none)
      (fun p => if p = "doc.txt" then some (9 : Int) else none)
      0 "doc.txt" "hello").2.1 (by decide)).1⟩

/-- C3 counterexample: with `max_items = 0` (the constructor accepts any
bound) the eviction loop stops on the empty cache and the insertion is
admitted, so after `put` the item count is 1 > `max_items` although the
entry does not exceed the byte bound - the oversized-entry exception in
the claim does not cover it. -/
theorem cache_bounds_zero_items_cex :
    (DocumentCache.put ⟨104857600, 0, 0, [], 0, 0⟩ (fun _ => none) 0
        "a.txt" "ab").cache.length = 1
      ∧ (⟨104857600, 0, 0, [], 0, 0⟩ : DocumentCache).maxItems = 0
      ∧ (("ab".utf8ByteSize : Int)
          ≤ ((⟨104857600, 0, 0, [], 0, 0⟩ : DocumentCache).maxSizeBytes : Int)) := by
  refine ⟨by decide, by decide, by decide⟩

/-- C3 amended: for every configuration with `max_items` at least 1 (the
constructor default is 50) and every reachable (well-formed) cache
state, after `put` the item count is at most `max_items`, and the total
resident bytes are within the byte bound except when the single new
entry alone exceeds it, in which case the cache holds exactly that
entry; the accounting invariant is preserved. -/
theorem cache_bounds_amended (c : DocumentCache) (fs : String → Option Int)
    (now : Int) (p content : String) (hwf : CacheWF c) (hmax : 1 ≤ c.maxItems) :
    CacheWF (DocumentCache.put c fs now p content)
    ∧ (DocumentCache.put c fs now p content).cache.length ≤ c.maxItems
    ∧ ((DocumentCache.put c fs now p content).currentSize ≤ (c.maxSizeBytes : Int)
       ∨ ((c.maxSizeBytes : Int) < (content.utf8ByteSize : Int)
          ∧ (DocumentCache.put c fs now p content).cache
              = [(p, ⟨content, content.utf8ByteSize, getFileMtime fs p, now,
                      p⟩)])) := by
  have hc1 := c1_wf c p hwf
  have hspec := evictLoop_spec content.utf8ByteSize
    ((if (findEntry c p).isSome then removeEntry c p else c)).cache.length
    ((if (findEntry c p).isSome then removeEntry c p else c)) hc1.1 le_rfl
  have hms : (evictLoop content.utf8ByteSize
      ((if (findEntry c p).isSome then removeEntry c p else c)).cache.length
      ((if (findEntry c p).isSome then removeEntry c p else c))).maxSizeBytes
      = c.maxSizeBytes := hspec.2.1.trans hc1.2.1
  have hmi : (evictLoop content.utf8ByteSize
      ((if (findEntry c p).isSome then removeEntry c p else c)).cache.length
      ((if (findEntry c p).isSome then removeEntry c p else c))).maxItems
      = c.maxItems := hspec.2.2.1.trans hc1.2.2
  have hno : ∀ kv ∈ (evictLoop content.utf8ByteSize
      ((if (findEntry c p).isSome then removeEntry c p else c)).cache.length
      ((if (findEntry c p).isSome then removeEntry c p else c))).cache,
      kv.1 ≠ p := by
    intro kv hkv
    exact c1_no_key c p kv ((evictLoop_sublist _ _ _).subset hkv)
  have hpost : ¬((evictLoop content.utf8ByteSize
        ((if (findEntry c p).isSome then removeEntry c p else c)).cache.length
        ((if (findEntry c p).isSome then removeEntry c p else c))).currentSize
          + (⟨content, content.utf8ByteSize, getFileMtime fs p, now,
              p⟩ : CacheEntry).size
        > ((evictLoop content.utf8ByteSize
            ((if (findEntry c p).isSome then removeEntry c p else c)).cache.length
            ((if (findEntry c p).isSome then removeEntry c p else c))).maxSizeBytes
              : Int)
      ∨ (evictLoop content.utf8ByteSize
          ((if (findEntry c p).isSome then removeEntry c p else c)).cache.length
          ((if (findEntry c p).isSome then removeEntry c p else c))).cache.length
        ≥ (evictLoop content.utf8ByteSize
            ((if (findEntry c p).isSome then removeEntry c p else c)).cache.length
            ((if (findEntry c p).isSome then removeEntry c p else c))).maxItems)
      ∨ (evictLoop content.utf8ByteSize
          ((if (findEntry c p).isSome then removeEntry c p else c)).cache.length
          ((if (findEntry c p).isSome then removeEntry c p else c))).cache
        = [] := by
    have h4 := hspec.2.2.2
    rw [hc1.2.1, hc1.2.2] at h4
    rw [hms, hmi]
    exact h4
  have hstep := append_step _ p
    (⟨content, content.utf8ByteSize, getFileMtime fs p, now, p⟩ : CacheEntry)
    hspec.1 hno hpost (hmi ▸ hmax)
  rw [hms, hmi] at hstep
  exact ⟨hstep.1, hstep.2.1, hstep.2.2⟩

/-- C3 amended witness: a put into an empty default-bounds cache. -/
theorem cache_bounds_amended_witness :
    (CacheWF ⟨104857600, 50, 0, [], 0, 0⟩
        ∧ 1 ≤ (⟨104857600, 50, 0, [], 0, 0⟩ : DocumentCache).maxItems)
      ∧ (CacheWF (DocumentCache.put ⟨104857600, 50, 0, [], 0, 0⟩
            (fun _ => none) 0 "a.txt" "ab")
        ∧ (DocumentCache.put ⟨104857600, 50, 0, [], 0, 0⟩
            (fun _ => none) 0 "a.txt" "ab").cache.length
            ≤ (⟨104857600, 50, 0, [], 0, 0⟩ : DocumentCache).maxItems
        ∧ ((DocumentCache.put ⟨104857600, 50, 0, [], 0, 0⟩
              (fun _ => none) 0 "a.txt" "ab").currentSize
            ≤ (((⟨104857600, 50, 0, [], 0, 0⟩ : DocumentCache).maxSizeBytes : Int))
          ∨ ((((⟨104857600, 50, 0, [], 0, 0⟩ : DocumentCache).maxSizeBytes : Int))
              < ("ab".utf8ByteSize : Int)
            ∧ (DocumentCache.put ⟨104857600, 50, 0, [], 0, 0⟩
                (fun _ => none) 0 "a.txt" "ab").cache
              = [("a.txt", ⟨"ab", "ab".utf8ByteSize,
                  getFileMtime (fun _ => none) "a.txt", 0, "a.txt"⟩)]))) :=
  ⟨⟨⟨by decide, by decide⟩, by decide⟩,
   cache_bounds_amended ⟨104857600, 50, 0, [], 0, 0⟩ (fun _ => none) 0
     "a.txt" "ab" ⟨by decide, by decide⟩ (by decide)⟩

/-- C4 counterexample: an utterance consisting of a malformed directive
that contains the action marker but no input line, with no final-answer
marker, is not returned as the final answer: the turn silently consumes
the iteration and the answer comes from the next generation. -/
theorem malformed_action_consumes_iteration_cex :
    ask (fun i => if i = 0 then ⟨["Action: read_file"], none⟩
                  else ⟨["SECOND"], none⟩)
        (fun _ _ => "OBS") "FB" 2
      = ⟨"SECOND", []⟩
      ∧ "SECOND" ≠ "Action: read_file" := by
  constructor
  · decide
  · decide

/-- C4 amended: an utterance containing no action marker at all (and no
final-answer marker) is returned whole as the final answer; but an
utterance that contains the action marker with a malformed or missing
input directive neither dispatches nor returns - the loop moves on to
the next iteration. -/
theorem malformed_action_amended (gen : Nat → TurnGen)
    (tool : String → String → String) (fb : String) (n : Nat) :
    (pyIn "Action:" (streamTurn (gen 0)) = false →
      pyIn "Final Answer:" (streamTurn (gen 0)) = false →
      ask gen tool fb (n + 1) = ⟨streamTurn (gen 0), []⟩)
    ∧ (pyIn "Action:" (streamTurn (gen 0)) = true →
      pyIn "Action Input:" (streamTurn (gen 0)) = false →
      pyIn "Final Answer:" (streamTurn (gen 0)) = false →
      ask gen tool fb (n + 2) = askAux gen tool fb (n + 1) 1 []) := by
  constructor
  · intro hA hFA
    simp [ask, askAux, dispatchCond, hA, hFA]
  · intro hA hI hFA
    simp [ask, askAux, dispatchCond, hA, hI, hFA]

/-- C4 amended witness: a marker-free utterance is returned whole. -/
theorem malformed_action_amended_witness :
    (pyIn "Action:" (streamTurn ⟨["hello"], none⟩) = false
      ∧ pyIn "Final Answer:" (streamTurn ⟨["hello"], none⟩) = false)
      ∧ ask (fun _ => ⟨["hello"], none⟩) (fun _ _ => "OBS") "FB" 3
          = ⟨streamTurn ⟨["hello"], none⟩, []⟩ :=
  ⟨⟨by decide, by decide⟩,
   (malformed_action_amended (fun _ => ⟨["hello"], none⟩) (fun _ _ => "OBS")
     "FB" 2).1 (by decide) (by decide)⟩

/-- C5 counterexample: when the final iteration dispatches a tool, the
`continue` skips the incomplete-answer scan entirely: the utterance
matches the phrase list ("not found") yet the returned answer is the
fixed cap message without the fallback appended. -/
theorem cap_with_dispatch_skips_scan_cex :
    ask (fun _ => ⟨["not found\nAction: grep\nAction Input: foo"], none⟩)
        (fun _ _ => "OBS") "FB" 1
      = ⟨"Maximum iterations reached without final answer.",
         [⟨"grep", "foo", "OBS"⟩]⟩
      ∧ isIncompleteAnswer "not found\nAction: grep\nAction Input: foo" = true
      ∧ pyIn "FB" "Maximum iterations reached without final answer." = false := by
  refine ⟨by decide, by decide, by decide⟩

/-- C5 amended: on the cap iteration the incomplete-answer scan (append
fallback iff a phrase matches) runs only when the iteration neither
dispatched a tool nor produced a final answer; if the cap iteration
dispatches a tool, the loop exits and the fixed message "Maximum
iterations reached without final answer." is returned without scanning
the last utterance. -/
theorem cap_scan_amended (gen : Nat → TurnGen)
    (tool : String → String → String) (fb : String) (i : Nat)
    (steps : List Step) :
    (dispatchCond (streamTurn (gen i)) = false →
      pyIn "Final Answer:" (streamTurn (gen i)) = false →
      pyIn "Action:" (streamTurn (gen i)) = true →
      askAux gen tool fb 1 i steps
        = ⟨if isIncompleteAnswer (streamTurn (gen i)) then
             streamTurn (gen i) ++ "\n\n" ++ fb
           else streamTurn (gen i), steps⟩)
    ∧ (dispatchCond (streamTurn (gen i)) = true →
      askAux gen tool fb 1 i steps
        = ⟨"Maximum iterations reached without final answer.",
           steps ++ [⟨((parseDirective (streamTurn (gen i))).1).getD "",
                     ((parseDirective (streamTurn (gen i))).2).getD "",
                     tool (((parseDirective (streamTurn (gen i))).1).getD "")
                          (((parseDirective (streamTurn (gen i))).2).getD "")⟩]⟩) := by
  constructor
  · intro hd hFA hA
    simp [askAux, hd, hFA, hA]
    split <;> rfl
  · intro hd
    simp [askAux, hd]

/-- C5 amended witness: a malformed-directive utterance matching the
phrase list gets the fallback appended on the cap iteration. -/
theorem cap_scan_amended_witness :
    (dispatchCond (streamTurn ⟨["not found\nAction: bad"], none⟩) = false
      ∧ pyIn "Final Answer:" (streamTurn ⟨["not found\nAction: bad"], none⟩)
          = false
      ∧ pyIn "Action:" (streamTurn ⟨["not found\nAction: bad"], none⟩) = true)
      ∧ askAux (fun _ => ⟨["not found\nAction: bad"], none⟩) (fun _ _ => "OBS")
          "FB" 1 0 []
        = ⟨if isIncompleteAnswer (streamTurn ⟨["not found\nAction: bad"], none⟩)
             then streamTurn ⟨["not found\nAction: bad"], none⟩ ++ "\n\n" ++ "FB"
           else streamTurn ⟨["not found\nAction: bad"], none⟩, []⟩ :=
  ⟨⟨by decide, by decide, by decide⟩,
   (cap_scan_amended (fun _ => ⟨["not found\nAction: bad"], none⟩)
     (fun _ _ => "OBS") "FB" 0 []).1 (by decide) (by decide) (by decide)⟩

/-- C6 counterexample: a generation failure before any fragment yields
the synthesized error message alone - the deterministic fallback search
result is not appended, contrary to the claim. -/
theorem empty_stream_error_no_fallback_cex :
    ask (fun _ => ⟨[], some "connection refused"⟩) (fun _ _ => "OBS")
        "FALLBACK" 10
      = ⟨"Error during response generation: connection refused", []⟩
      ∧ pyIn "FALLBACK"
          "Error during response generation: connection refused" = false := by
  refine ⟨by decide, by decide⟩

/-- C6 amended: a mid-stream error with nothing accumulated makes the
turn proceed with the synthesized error message, which (containing no
markers) is returned as the answer without any fallback search; partial
text already accumulated is preserved and (containing no markers)
returned as-is. -/
theorem generation_failure_amended (e c : String)
    (tool : String → String → String) (fb : String) (n : Nat) :
    (pyIn "Action:" ("Error during response generation: " ++ e) = false →
      pyIn "Final Answer:" ("Error during response generation: " ++ e) = false →
      ask (fun _ => ⟨[], some e⟩) tool fb (n + 1)
        = ⟨"Error during response generation: " ++ e, []⟩)
    ∧ (c ≠ "" →
      pyIn "Action:" c = false →
      pyIn "Final Answer:" c = false →
      ask (fun _ => ⟨[c], some e⟩) tool fb (n + 1) = ⟨c, []⟩) := by
  constructor
  · intro hA hFA
    have hmsg : streamTurn ⟨[], some e⟩ = "Error during response generation: " ++ e := rfl
    simp [ask, askAux, dispatchCond, hmsg, hA, hFA]
  · intro hc hA hFA
    have hmsg : streamTurn ⟨[c], some e⟩ = c := by
      simp [streamTurn, consumeStream, hc]
    simp [ask, askAux, dispatchCond, hmsg, hA, hFA]

/-- C6 amended witness: both the empty-accumulation and the partial-text
case at concrete inputs. -/
theorem generation_failure_amended_witness :
    (pyIn "Action:" ("Error during response generation: " ++ "boom") = false
      ∧ ask (fun _ => ⟨[], some "boom"⟩) (fun _ _ => "OBS") "FB" 5
          = ⟨"Error during response generation: " ++ "boom", []⟩)
      ∧ ("partial" ≠ ""
        ∧ ask (fun _ => ⟨["partial"], some "boom"⟩) (fun _ _ => "OBS") "FB" 5
            = ⟨"partial", []⟩) :=
  ⟨⟨by decide,
    (generation_failure_amended "boom" "partial" (fun _ _ => "OBS") "FB" 4).1
      (by decide) (by decide)⟩,
   ⟨by decide,
    (generation_failure_amended "boom" "partial" (fun _ _ => "OBS") "FB" 4).2
      (by decide) (by decide) (by decide)⟩⟩
